import Mathlib

set_option autoImplicit false

/-!
Verification of the spalloc client library (spalloc/_utils.py,
spalloc/protocol_client.py, spalloc/states.py, spalloc/job.py) against its
natural-language specification.  Network activity is modelled by finite
scripts of received items with arrival delays; wall-clock time is modelled by
natural-number ticks; the background keepalive thread is modelled as a
sequential tick machine driven by a stop-signal schedule.
-/

/-- Job states, from spalloc/states.py (`class JobState(IntEnum)`). -/
inductive JobState where
  | unknown
  | queued
  | power
  | ready
  | destroyed
deriving DecidableEq, Repr

/-- The integer value of each state in the `IntEnum` of spalloc/states.py. -/
def JobState.val : JobState → Nat
  | .unknown => 0
  | .queued => 1
  | .power => 2
  | .ready => 3
  | .destroyed => 4

/-- A JSON value, as carried on the wire (enough structure for the claims). -/
inductive JVal where
  | null
  | num (n : Int)
  | str (s : String)
deriving DecidableEq, Repr

/-- One received newline-delimited JSON object, as inspected by
`ProtocolClient.call`: `ret` is the value under the `return` key if present,
`exc` the value under the `exception` key if present (the source tests
`if "return" in obj` and then `if "exception" in obj`), and `body` stands for
the rest of the object, which identifies it when queued as a notification. -/
structure RecvLine where
  ret : Option JVal
  exc : Option String
  body : JVal
deriving DecidableEq, Repr

/-- What one `_recv_json` attempt can deliver: a decoded line, or an
IOError/OSError from the socket (closed connection, reset, ...). -/
inductive RecvItem where
  | line (l : RecvLine)
  | fault (msg : String)
deriving DecidableEq, Repr

/-- Function `timed_out` from spalloc/_utils.py specialised to tick time: a deadline of
`none` never times out; `some f` has timed out at tick `t` iff `f < t`. -/
def timedOutN : Option Nat → Nat → Bool
  | none, _ => false
  | some f, t => decide (f < t)

/-- Whether tick `t` is within a deadline (`none` = wait forever). -/
def inTime : Option Nat → Nat → Bool
  | none, _ => true
  | some f, t => decide (t ≤ f)

/-- Outcomes of `ProtocolClient.call`, one per exit path of the source:
a `return`-tagged reply, the implicit `None` when the receive loop's
`timed_out` guard exits, `SpallocServerException` for an `exception`-tagged
reply, `ProtocolTimeoutError` (raised by `_send_json`/`_recv_json` and not
caught by the `except (IOError, OSError)` clause), `ProtocolError` wrapping an
IOError/OSError, and divergence when no deadline is set and no data arrives. -/
inductive CallOutcome where
  | ret (v : JVal)
  | retNone
  | serverExc (m : String)
  | protoTimeout
  | protoError (m : String)
  | hung
deriving DecidableEq, Repr

/-- The receive loop of `ProtocolClient.call` (protocol_client.py lines
284-299).  `fin` is the absolute deadline (`finish_time`), `t` the current
tick, and the script lists the items the peer will deliver together with the
delay before each one.  An item whose arrival falls beyond the deadline is
never seen: the socket timeout fires first and `_recv_json` raises
`ProtocolTimeoutError`.  Returns the outcome together with the lines that were
appended to the notification queue, in arrival order. -/
def callLoop (fin : Option Nat) :
    List (Nat × RecvItem) → Nat → CallOutcome × List RecvLine
  | script, t =>
    if timedOutN fin t then (.retNone, [])
    else
      match script with
      | [] => ((if fin.isSome then .protoTimeout else .hung), [])
      | (d, item) :: rest =>
        if inTime fin (t + d) then
          match item with
          | .fault m => (.protoError m, [])
          | .line l =>
            match l.ret with
            | some v => (.ret v, [])
            | none =>
              match l.exc with
              | some m => (.serverExc m, [])
              | none =>
                let r := callLoop fin rest (t + d)
                (r.1, l :: r.2)
        else (.protoTimeout, [])

/-- The outcome of the `_send_json` step of a call: the send completes after
`dur` ticks (subject to the socket timeout), or the socket raises an
IOError/OSError. -/
inductive SendSpec where
  | ok (dur : Nat)
  | ioErr (m : String)
deriving DecidableEq, Repr

/-- Client-side state of a `ProtocolClient`: the `_dead` flag, the FIFO
`_notifications` queue, and the keys of the per-thread sockets in `_socks`. -/
structure ClientState where
  dead : Bool
  queue : List RecvLine
  socks : List Nat
deriving DecidableEq, Repr

/-- Result of one `ProtocolClient.call`: the outcome, the state afterwards,
and whether any network I/O was attempted. -/
structure CallResult where
  outcome : CallOutcome
  state : ClientState
  usedNetwork : Bool
deriving DecidableEq, Repr

/-- Model of `ProtocolClient.call` (protocol_client.py lines 258-301).  When the client
is dead, `_get_connection` raises `OSError(ENOTCONN, "not connected")` before
any I/O, which the `except (IOError, OSError)` clause wraps in a
`ProtocolError`.  Otherwise the command is sent (`_send_json` with the raw
`timeout` as socket timeout; `finish_time = make_timeout(timeout)` was fixed
before the send, so the send's duration counts against the deadline) and the
receive loop runs.  Notification lines are appended to the queue. -/
def clientCall (st : ClientState) (timeout : Option Nat) (send : SendSpec)
    (script : List (Nat × RecvItem)) : CallResult :=
  if st.dead then ⟨.protoError "not connected", st, false⟩
  else
    match send with
    | .ioErr m => ⟨.protoError m, st, true⟩
    | .ok dur =>
      if inTime timeout dur then
        let r := callLoop timeout script dur
        ⟨r.1, { st with queue := st.queue ++ r.2 }, true⟩
      else ⟨.protoTimeout, st, true⟩

/-- Outcomes of `ProtocolClient.wait_for_notification`: a line delivered
(popped from the queue or freshly received — the source returns whatever
`_recv_json` yields), the `None` returned on a negative timeout with an empty
queue, a propagated `ProtocolTimeoutError`, a `ProtocolError` wrapping an
IOError/OSError, or divergence. -/
inductive WfnOutcome where
  | notif (l : RecvLine)
  | noNotif
  | protoTimeout
  | protoError (m : String)
  | hung
deriving DecidableEq, Repr

/-- Result of one `wait_for_notification`: outcome, state afterwards, and
whether a receive was attempted. -/
structure WfnResult where
  outcome : WfnOutcome
  state : ClientState
  recvAttempted : Bool
deriving DecidableEq, Repr

/-- Model of `ProtocolClient.wait_for_notification` (protocol_client.py lines 303-343):
pop the oldest queued notification if any; otherwise return `None` when the
caller passed a negative timeout; otherwise perform one `_recv_json` bounded
by `timeout`, wrapping IOError/OSError in `ProtocolError` (including the
`not connected` OSError raised when the client is dead). -/
def waitForNotification (st : ClientState) (timeout : Option Int)
    (script : List (Nat × RecvItem)) : WfnResult :=
  match st.queue with
  | l :: rest => ⟨.notif l, { st with queue := rest }, false⟩
  | [] =>
    match timeout with
    | some f =>
      if f < 0 then ⟨.noNotif, st, false⟩
      else
        if st.dead then ⟨.protoError "not connected", st, true⟩
        else
          match script with
          | [] => ⟨.protoTimeout, st, true⟩
          | (d, item) :: _ =>
            if (d : Int) ≤ f then
              match item with
              | .fault m => ⟨.protoError m, st, true⟩
              | .line l => ⟨.notif l, st, true⟩
            else ⟨.protoTimeout, st, true⟩
    | none =>
      if st.dead then ⟨.protoError "not connected", st, true⟩
      else
        match script with
        | [] => ⟨.hung, st, true⟩
        | (_, item) :: _ =>
          match item with
          | .fault m => ⟨.protoError m, st, true⟩
          | .line l => ⟨.notif l, st, true⟩

/-- Model of `ProtocolClient.close` (protocol_client.py lines 180-187): set `_dead`,
close and drop every per-thread socket, reset the thread-local state.  The
notification queue is not cleared.  Returns the new state together with the
keys of the connections that were closed. -/
def clientClose (st : ClientState) : ClientState × List Nat :=
  (⟨true, st.queue, []⟩, st.socks)

example :
    (clientCall ⟨false, [], [0]⟩ (some 5) (.ok 0)
      [(1, .line ⟨none, none, .num 9⟩), (1, .line ⟨some (.num 7), none, .null⟩)]).outcome
      = .ret (.num 7) := by decide

example :
    (clientCall ⟨false, [], [0]⟩ (some 5) (.ok 0)
      [(1, .line ⟨none, none, .num 9⟩), (1, .line ⟨some (.num 7), none, .null⟩)]).state.queue
      = [⟨none, none, .num 9⟩] := by decide

example :
    (clientCall ⟨false, [], [0]⟩ (some 5) (.ok 0)
      [(7, .line ⟨some (.num 7), none, .null⟩)]).outcome = .protoTimeout := by decide

/-- The acceptable keyword-name sets of `ProtocolClient.where_is`
(protocol_client.py, `_acceptable_kwargs_for_where_is`). -/
def acceptableWhereIsKwargs : List (List String) :=
  [["machine", "x", "y", "z"],
   ["machine", "cabinet", "frame", "board"],
   ["machine", "chip_x", "chip_y"],
   ["job_id", "chip_x", "chip_y"]]

/-- Equality of the frozensets of two keyword-name lists. -/
def kwSetEq (a b : List String) : Bool :=
  a.all (b.contains ·) && b.all (a.contains ·)

/-- The membership test `frozenset(kwargs) in _acceptable_kwargs_for_where_is`
performed by `ProtocolClient.where_is`. -/
def whereIsKwargsOk (keywords : List String) : Bool :=
  acceptableWhereIsKwargs.any (kwSetEq keywords ·)

/-- Result of `ProtocolClient.where_is`: either the `where_is` RPC is issued
with the given keyword arguments, or a `SpallocServerException` is raised
locally. -/
inductive WhereIsResult where
  | rpc (keywords : List String)
  | localServerExc (m : String)
deriving DecidableEq, Repr

/-- Model of `ProtocolClient.where_is` (protocol_client.py lines 407-420): validate the
keyword-name set locally, raising `SpallocServerException` when it matches
none of the acceptable sets, and otherwise issue the `where_is` RPC.  The
second component records whether any network I/O was performed. -/
def whereIs (keywords : List String) : WhereIsResult × Bool :=
  if whereIsKwargsOk keywords then (.rpc keywords, true)
  else (.localServerExc
    ("Invalid arguments: " ++ String.intercalate ", " keywords), false)

/-- The exceptions `Job.destroy` can see from its notify-the-server step
(`self._client.destroy_job(...)`), by type: raw socket faults, and the
exceptions `ProtocolClient.call` raises. -/
inductive SpallocExc where
  | ioError (m : String)
  | osError (m : String)
  | protoTimeoutE
  | protoErrorE (m : String)
  | serverExcE (m : String)
deriving DecidableEq, Repr

/-- Whether `Job.destroy`'s `except (IOError, OSError, ProtocolTimeoutError)`
clause catches a given exception.  `ProtocolError` and
`SpallocServerException` derive directly from `Exception` and are not
caught. -/
def destroyCaught : SpallocExc → Bool
  | .ioError _ => true
  | .osError _ => true
  | .protoTimeoutE => true
  | .protoErrorE _ => false
  | .serverExcE _ => false

/-- Model of `Job.destroy` (job.py lines 386-403) given the exception raised by the
`destroy_job` RPC (`none` = the RPC succeeded).  Returns the exception that
propagates out of `destroy` (if any) and whether `self.close()` was reached:
a caught exception is logged and `close()` runs; an uncaught one propagates
before the `close()` call. -/
def jobDestroy : Option SpallocExc → Option SpallocExc × Bool
  | none => (none, true)
  | some e => if destroyCaught e then (none, true) else (some e, false)

/-- The exception raised by `destroy_job` as a function of the outcome of the
underlying `ProtocolClient.call` (a `hung` call never returns, so no exception
is modelled for it). -/
def callExc : CallOutcome → Option SpallocExc
  | .ret _ => none
  | .retNone => none
  | .serverExc m => some (.serverExcE m)
  | .protoTimeout => some .protoTimeoutE
  | .protoError m => some (.protoErrorE m)
  | .hung => none

/-- Model of `Job.destroy` composed with the outcome of the `destroy_job` call. -/
def jobDestroyFromCall (o : CallOutcome) : Option SpallocExc × Bool :=
  jobDestroy (callExc o)

/-- Function `time_left` from spalloc/_utils.py, with the current clock reading `now`
passed explicitly in place of `time.time()`. -/
def time_left (now : Int) : Option Int → Option Int
  | none => none
  | some ts => some (max 0 (ts - now))

/-- Function `timed_out` from spalloc/_utils.py, with the clock passed explicitly. -/
def timed_out (now : Int) : Option Int → Bool
  | none => false
  | some ts => decide (ts < now)

/-- Function `make_timeout` from spalloc/_utils.py, with the clock passed explicitly. -/
def make_timeout (now : Int) : Option Int → Option Int
  | none => none
  | some d => some (now + d)

/-- Constant `VERSION_RANGE_START` from job.py, as the version triple (0, 4, 0). -/
def VERSION_RANGE_START : List Nat := [0, 4, 0]

/-- Constant `VERSION_RANGE_STOP` from job.py, as the version triple (2, 0, 0). -/
def VERSION_RANGE_STOP : List Nat := [2, 0, 0]

/-- Python tuple comparison `<` on tuples of integers (lexicographic, with a
proper prefix comparing less). -/
def pyTupleLt : List Nat → List Nat → Bool
  | [], [] => false
  | [], _ :: _ => true
  | _ :: _, [] => false
  | a :: as, b :: bs => decide (a < b) || (decide (a = b) && pyTupleLt as bs)

/-- Python tuple comparison `<=` on tuples of integers. -/
def pyTupleLe (a b : List Nat) : Bool :=
  pyTupleLt a b || decide (a = b)

/-- The check of `Job._assert_compatible_version` (job.py lines 338-347):
`VERSION_RANGE_START <= tuple(map(int, v.split(".")[:3])) < VERSION_RANGE_STOP`,
with `v` already parsed into its integer components. -/
def versionCompatible (v : List Nat) : Bool :=
  pyTupleLe VERSION_RANGE_START (v.take 3) && pyTupleLt (v.take 3) VERSION_RANGE_STOP

/-- The externally visible steps of `Job.__init__`, in program order. -/
inductive InitAction where
  | connect
  | versionRpc
  | clientClosed
  | getState
  | createJob
  | startKeepalive
deriving DecidableEq, Repr

/-- The errors `Job.__init__` can raise before the keepalive thread starts. -/
inductive InitError where
  | noHostname
  | incompatibleVersion
  | jobNotResumable
  | noOwner
  | machineAndTags
  | createFailed (m : String)
deriving DecidableEq, Repr

/-- The inputs that determine the control flow of `Job.__init__`: the merged
keyword-argument/configuration values it reads, the version the server
reports, the state reported when resuming, and whether the `create_job` RPC
succeeds (carrying the error message when it does not). -/
structure JobInitInput where
  hostname : Option String
  serverVersion : List Nat
  resumeJobId : Option Nat
  resumeState : JobState
  owner : Option String
  machine : Option String
  tags : Option (List String)
  createError : Option String
deriving DecidableEq, Repr

/-- Model of `Job.__init__` (job.py lines 220-309): check the hostname, connect,
perform the version handshake (closing the client and raising on an
incompatible version), then either resume an existing job (raising
`JobDestroyedError` when the server reports it `unknown` or `destroyed`) or
validate `owner` and the `machine`/`tags` exclusivity before issuing
`create_job`; only after all of this is the keepalive thread started.  Note
`if resume_job_id:` is a Python truthiness test, so a job id of 0 takes the
creation path.  Returns the executed actions in order and the error raised,
if any. -/
def jobInit (inp : JobInitInput) : List InitAction × Option InitError :=
  match inp.hostname with
  | none => ([], some .noHostname)
  | some _ =>
    if versionCompatible inp.serverVersion then
      if inp.resumeJobId.getD 0 ≠ 0 then
        if inp.resumeState = .unknown ∨ inp.resumeState = .destroyed then
          ([.connect, .versionRpc, .getState], some .jobNotResumable)
        else
          ([.connect, .versionRpc, .getState, .startKeepalive], none)
      else
        if inp.owner = none then
          ([.connect, .versionRpc], some .noOwner)
        else if inp.machine ≠ none ∧ inp.tags ≠ none then
          ([.connect, .versionRpc], some .machineAndTags)
        else
          match inp.createError with
          | some m => ([.connect, .versionRpc, .createJob], some (.createFailed m))
          | none => ([.connect, .versionRpc, .createJob, .startKeepalive], none)
    else
      ([.connect, .versionRpc, .clientClosed], some .incompatibleVersion)

/-- Outcomes of `Job.wait_until_ready`: normal return, `JobDestroyedError`
(carrying the server-reported reason, or the fixed message for an unknown
job), or `StateChangeTimeoutError`. -/
inductive WaitUntilReadyOutcome where
  | success
  | jobDestroyed (msg : Option String)
  | stateChangeTimeout
deriving DecidableEq, Repr

/-- The message of the `JobDestroyedError` raised by `Job.wait_until_ready`
when the observed state is `unknown`. -/
def unrecognisedMsg : String := "Spalloc server no longer recognises job."

/-- The loop of `Job.wait_until_ready` (job.py lines 657-702).  `obs i` is the
state observed on the i-th iteration (the initial `_get_state` for i = 0, the
result of `wait_for_state_change` afterwards), `reason i` the reason reported
by the extra `_get_state` issued when iteration i observes `destroyed`,
`dur i` the ticks iteration i's wait consumes, and `T` the caller's timeout
(the deadline is `T` itself, the clock starting at 0).  The `timed_out` guard
is re-checked before each observation is examined.  `fuel` bounds the number
of iterations simulated; `none` means the simulation budget ran out. -/
def waitUntilReadyAux (obs : Nat → JobState) (reason : Nat → Option String)
    (dur : Nat → Nat) (T : Option Nat) :
    Nat → Nat → Nat → Option WaitUntilReadyOutcome
  | 0, _, _ => none
  | fuel + 1, i, t =>
    if timedOutN T t then some .stateChangeTimeout
    else
      match obs i with
      | .ready => some .success
      | .queued => waitUntilReadyAux obs reason dur T fuel (i + 1) (t + dur i)
      | .power => waitUntilReadyAux obs reason dur T fuel (i + 1) (t + dur i)
      | .destroyed => some (.jobDestroyed (reason i))
      | .unknown => some (.jobDestroyed (some unrecognisedMsg))

/-- Model of `Job.wait_until_ready` run from the first iteration at tick 0. -/
def waitUntilReady (obs : Nat → JobState) (reason : Nat → Option String)
    (dur : Nat → Nat) (T : Option Nat) (fuel : Nat) :
    Option WaitUntilReadyOutcome :=
  waitUntilReadyAux obs reason dur T fuel 0 0

/-- First tick in the window of `n + 1` ticks starting at `t` at which the
stop event is set, if any: the behaviour of `threading.Event.wait` over a
bounded wait observed at tick granularity. -/
def scanStop (stop : Nat → Bool) : Nat → Nat → Option Nat
  | t, 0 => if stop t then some t else none
  | t, n + 1 => if stop t then some t else scanStop stop (t + 1) n

/-- Model of `Job._keepalive_thread` (job.py lines 366-384) as a tick machine.  The
phase flag selects the outer loop (`while not self._stop.wait(keepalive)`,
phase `false`) or the inner retry loop (`while not self._stop.is_set()`,
phase `true`).  `halfKa` is the already halved keepalive interval (`none`
makes the outer wait block until the stop event is set, modelled by scanning
up to the remaining fuel).  `rpcOk t` tells whether the `job_keepalive` RPC
issued at tick `t` succeeds; a failed RPC is followed by `_close`, a
`reconnect_delay` wait interruptible by the stop event, and `_reconnect`
(one tick), after which the retry loop continues.  Returns the ticks at which
keepalive RPCs were issued and the tick at which the loop terminated
(`none` when the fuel ran out first). -/
def kloop (stop rpcOk : Nat → Bool) (halfKa : Option Nat) (rd : Nat) :
    Nat → Bool → Nat → List Nat × Option Nat
  | 0, _, _ => ([], none)
  | fuel + 1, false, t =>
    match halfKa with
    | some d =>
      match scanStop stop t d with
      | some u => ([], some u)
      | none => kloop stop rpcOk halfKa rd fuel true (t + d)
    | none =>
      match scanStop stop t fuel with
      | some u => ([], some u)
      | none => ([], none)
  | fuel + 1, true, t =>
    if stop t then kloop stop rpcOk halfKa rd fuel false t
    else
      let r :=
        if rpcOk t then kloop stop rpcOk halfKa rd fuel false (t + 1)
        else
          match scanStop stop (t + 1) rd with
          | some u => kloop stop rpcOk halfKa rd fuel false u
          | none => kloop stop rpcOk halfKa rd fuel true (t + rd + 2)
      (t :: r.1, r.2)

/-- The keepalive thread started by `Job.__init__`: the interval is halved
(`keepalive /= 2.0`) before the loop starts in the outer phase at tick 0. -/
def jobKeepaliveThread (stop rpcOk : Nat → Bool) (keepalive : Option Nat)
    (rd fuel : Nat) : List Nat × Option Nat :=
  kloop stop rpcOk (keepalive.map (· / 2)) rd fuel false 0

/-- The steps of `Job.close` (job.py lines 405-420), in program order. -/
inductive CloseAction where
  | setStopSignal
  | joinKeepalive
  | closeClient
deriving DecidableEq, Repr

/-- Model of `Job.close`: set the stop event, join the keepalive thread, close the
protocol client. -/
def jobCloseActions : List CloseAction :=
  [.setStopSignal, .joinKeepalive, .closeClient]

example :
    jobKeepaliveThread (fun t => decide (5 ≤ t)) (fun _ => true) (some 4) 3 20
      = ([2], some 5) := by decide

example :
    jobKeepaliveThread (fun t => decide (5 ≤ t)) (fun _ => true) none 3 20
      = ([], some 5) := by decide

example :
    waitUntilReady
      (fun i => if i = 0 then .queued else if i = 1 then .power else .destroyed)
      (fun _ => some "evicted") (fun _ => 1) (some 10) 5
      = some (.jobDestroyed (some "evicted")) := by decide

lemma kwSetEq_iff (a b : List String) :
    kwSetEq a b = true ↔ a.toFinset = b.toFinset := by
  simp only [kwSetEq, Bool.and_eq_true, List.all_eq_true, List.contains,
    List.elem_eq_mem, decide_eq_true_eq, Finset.ext_iff, List.mem_toFinset]
  constructor
  · rintro ⟨h1, h2⟩ x
    exact ⟨fun hx => h1 x hx, fun hx => h2 x hx⟩
  · intro h
    exact ⟨fun x hx => (h x).1 hx, fun x hx => (h x).2 hx⟩

lemma whereIsKwargsOk_iff (ks : List String) :
    whereIsKwargsOk ks = true ↔
      ks.toFinset ∈ acceptableWhereIsKwargs.map List.toFinset := by
  simp only [whereIsKwargsOk, List.any_eq_true, List.mem_map]
  constructor
  · rintro ⟨acc, hacc, heq⟩
    exact ⟨acc, hacc, ((kwSetEq_iff ks acc).1 heq).symm⟩
  · rintro ⟨acc, hacc, heq⟩
    exact ⟨acc, hacc, (kwSetEq_iff ks acc).2 heq.symm⟩

/-- C9: the timeout utilities (spalloc/_utils.py) convert a relative delay
into an absolute deadline and back: at a fixed clock reading `now`,
`make_timeout` of a non-negative delay `d` is `now + d` and `time_left` of
that deadline is `d` again; `time_left` never yields a negative value; and a
`None` delay propagates through all three functions, `timed_out` treating it
as never expiring. -/
theorem timeout_utils_spec (now d : Int) (ts : Option Int) (h : 0 ≤ d) :
    make_timeout now (some d) = some (now + d) ∧
    time_left now (make_timeout now (some d)) = some d ∧
    (∀ l, time_left now ts = some l → 0 ≤ l) ∧
    make_timeout now none = none ∧
    time_left now none = none ∧
    timed_out now none = false := by
  refine ⟨rfl, ?_, ?_, rfl, rfl, rfl⟩
  · simp only [make_timeout, time_left, Option.some.injEq]
    omega
  · cases ts with
    | none => intro l hl; simp [time_left] at hl
    | some v =>
      intro l hl
      simp only [time_left, Option.some.injEq] at hl
      omega

/-- Concrete instance of `timeout_utils_spec` at `now = 100`, `d = 7`,
`ts = some 50`. -/
theorem timeout_utils_spec_witness :
    (0 : Int) ≤ 7 ∧
    (make_timeout 100 (some 7) = some 107 ∧
     time_left 100 (make_timeout 100 (some 7)) = some 7 ∧
     (∀ l, time_left 100 (some 50) = some l → 0 ≤ l) ∧
     make_timeout 100 none = none ∧
     time_left 100 none = none ∧
     timed_out 100 none = false) :=
  ⟨by decide, timeout_utils_spec 100 7 (some 50) (by decide)⟩

/-- C8: `wait_for_notification` called with a negative timeout first pops and
returns the oldest queued notification when one is pending, and otherwise
returns `None` without attempting a receive and without raising. -/
theorem wait_for_notification_negative_timeout (st : ClientState) (T : Int)
    (script : List (Nat × RecvItem)) (h : T < 0) :
    (st.queue = [] →
      waitForNotification st (some T) script = ⟨.noNotif, st, false⟩) ∧
    (∀ l rest, st.queue = l :: rest →
      waitForNotification st (some T) script
        = ⟨.notif l, { st with queue := rest }, false⟩) := by
  obtain ⟨dead, q, socks⟩ := st
  constructor
  · intro hq
    simp only at hq
    subst hq
    simp [waitForNotification, h]
  · intro l rest hq
    simp only at hq
    subst hq
    simp [waitForNotification]

/-- Concrete instances of `wait_for_notification_negative_timeout`: an empty
queue yields `None` with no receive; a queued line is popped. -/
theorem wait_for_notification_negative_timeout_witness :
    (-1 : Int) < 0 ∧
    waitForNotification ⟨false, [], []⟩ (some (-1)) [] = ⟨.noNotif, ⟨false, [], []⟩, false⟩ ∧
    waitForNotification ⟨false, [⟨none, none, .num 3⟩], []⟩ (some (-1)) []
      = ⟨.notif ⟨none, none, .num 3⟩, ⟨false, [], []⟩, false⟩ :=
  ⟨by decide,
   (wait_for_notification_negative_timeout ⟨false, [], []⟩ (-1) [] (by decide)).1 rfl,
   (wait_for_notification_negative_timeout ⟨false, [⟨none, none, .num 3⟩], []⟩ (-1) []
      (by decide)).2 ⟨none, none, .num 3⟩ [] rfl⟩

/-- C7: after `ProtocolClient.close()` the client is dead: it has closed and
dropped every per-thread connection it owned, any subsequent `call` fails
immediately with the `not connected` `ProtocolError` without attempting any
network I/O and without changing the state, and a second `close` is a no-op
that closes nothing. -/
theorem client_close_spec (st : ClientState) (T : Option Nat) (send : SendSpec)
    (script : List (Nat × RecvItem)) :
    (clientClose st).1.dead = true ∧
    (clientClose st).1.socks = [] ∧
    (clientClose st).2 = st.socks ∧
    clientCall (clientClose st).1 T send script
      = ⟨.protoError "not connected", (clientClose st).1, false⟩ ∧
    clientClose (clientClose st).1 = ((clientClose st).1, []) := by
  refine ⟨rfl, rfl, rfl, ?_, rfl⟩
  simp [clientClose, clientCall]

/-- C10: `ProtocolClient.where_is` raises `SpallocServerException` locally,
performing no network I/O, exactly when the set of keyword names is none of
the four acceptable sets; otherwise it issues the `where_is` RPC with those
keyword arguments. -/
theorem where_is_kwargs_spec (ks : List String) :
    (ks.toFinset ∉ acceptableWhereIsKwargs.map List.toFinset →
      whereIs ks = (.localServerExc
        ("Invalid arguments: " ++ String.intercalate ", " ks), false)) ∧
    (ks.toFinset ∈ acceptableWhereIsKwargs.map List.toFinset →
      whereIs ks = (.rpc ks, true)) := by
  constructor
  · intro hmem
    have hok : whereIsKwargsOk ks = false := by
      rcases Bool.eq_false_or_eq_true (whereIsKwargsOk ks) with h | h
      · exact absurd ((whereIsKwargsOk_iff ks).1 h) hmem
      · exact h
    simp [whereIs, hok]
  · intro hmem
    have hok : whereIsKwargsOk ks = true := (whereIsKwargsOk_iff ks).2 hmem
    simp [whereIs, hok]

/-- Concrete instances of `where_is_kwargs_spec`: a bogus keyword set is
rejected locally with no I/O; the job-relative chip lookup set is accepted
and sent. -/
theorem where_is_kwargs_spec_witness :
    (["bogus"].toFinset ∉ acceptableWhereIsKwargs.map List.toFinset ∧
      whereIs ["bogus"] = (.localServerExc "Invalid arguments: bogus", false)) ∧
    (["job_id", "chip_x", "chip_y"].toFinset
        ∈ acceptableWhereIsKwargs.map List.toFinset ∧
      whereIs ["job_id", "chip_x", "chip_y"]
        = (.rpc ["job_id", "chip_x", "chip_y"], true)) :=
  ⟨⟨by decide, (where_is_kwargs_spec ["bogus"]).1 (by decide)⟩,
   ⟨by decide, (where_is_kwargs_spec ["job_id", "chip_x", "chip_y"]).2 (by decide)⟩⟩

/-- C3 counterexample: when the `destroy_job` RPC reports a server-side
failure, `Job.destroy` does not swallow it — `SpallocServerException` is not
in the `except (IOError, OSError, ProtocolTimeoutError)` list — so the
exception propagates and `close()` is never reached, contradicting the claim
that destroy swallows ServerException faults and calls `close()` in every
case. -/
theorem destroy_not_best_effort_counterexample :
    (clientCall ⟨false, [], []⟩ (some 5) (.ok 0)
        [(0, .line ⟨none, some "nope", .null⟩)]).outcome = .serverExc "nope" ∧
    jobDestroyFromCall (.serverExc "nope") = (some (.serverExcE "nope"), false) := by
  decide

/-- C3 amended: `Job.destroy` swallows IOError, OSError and
`ProtocolTimeoutError` from the `destroy_job` RPC and then calls `close()`
(as it does on success), but `ProtocolError` and `SpallocServerException`
propagate and `close()` is not called; moreover `call` never raises a raw
IOError/OSError (it wraps them in `ProtocolError`), so of the faults
`destroy_job` can actually raise only the timeout is swallowed. -/
theorem destroy_swallow_spec :
    jobDestroy none = (none, true) ∧
    (∀ m, jobDestroy (some (.ioError m)) = (none, true)) ∧
    (∀ m, jobDestroy (some (.osError m)) = (none, true)) ∧
    jobDestroy (some .protoTimeoutE) = (none, true) ∧
    (∀ m, jobDestroy (some (.protoErrorE m)) = (some (.protoErrorE m), false)) ∧
    (∀ m, jobDestroy (some (.serverExcE m)) = (some (.serverExcE m), false)) ∧
    (∀ o m, callExc o ≠ some (.ioError m) ∧ callExc o ≠ some (.osError m)) := by
  refine ⟨rfl, fun m => rfl, fun m => rfl, rfl, fun m => rfl, fun m => rfl, ?_⟩
  intro o m
  cases o <;> simp [callExc]

/-- C6: with a hostname configured, `Job.__init__` performs the version
handshake first (the trace starts with the connect and the `version` RPC,
before anything else); an incompatible server version raises before the
keepalive thread is started and before any `create_job` is sent; and for a
new lease (the resume id absent or 0, by Python truthiness) a missing owner,
or a machine name and a tags list supplied together, raises before
`create_job` and before the keepalive thread starts. -/
theorem job_init_fail_fast (inp : JobInitInput) (h : inp.hostname.isSome) :
    ((jobInit inp).1.take 2 = [.connect, .versionRpc]) ∧
    (versionCompatible inp.serverVersion = false →
      (jobInit inp).2 = some .incompatibleVersion ∧
      InitAction.startKeepalive ∉ (jobInit inp).1 ∧
      InitAction.createJob ∉ (jobInit inp).1) ∧
    (inp.resumeJobId.getD 0 = 0 → inp.owner = none →
      ((jobInit inp).2).isSome ∧
      InitAction.startKeepalive ∉ (jobInit inp).1 ∧
      InitAction.createJob ∉ (jobInit inp).1) ∧
    (inp.resumeJobId.getD 0 = 0 → inp.machine ≠ none → inp.tags ≠ none →
      ((jobInit inp).2).isSome ∧
      InitAction.startKeepalive ∉ (jobInit inp).1 ∧
      InitAction.createJob ∉ (jobInit inp).1) := by
  obtain ⟨hn, sv, rid, rst, ow, mc, tg, ce⟩ := inp
  cases hn with
  | none => simp at h
  | some hostname =>
    by_cases hv : versionCompatible sv
    · by_cases hr : rid.getD 0 ≠ 0
      · by_cases hst : rst = JobState.unknown ∨ rst = JobState.destroyed
        · simp [jobInit, hv, hr, hst]
        · refine ⟨?_, ?_, ?_, ?_⟩ <;>
            simp_all [jobInit, hv, hr, hst]
      · simp only [ne_eq, not_not] at hr
        by_cases how : ow = none
        · simp [jobInit, hv, hr, how]
        · by_cases hmt : mc ≠ none ∧ tg ≠ none
          · simp [jobInit, hv, hr, how, hmt]
          · cases ce <;>
              refine ⟨?_, ?_, ?_, ?_⟩ <;>
                cases mc <;> cases tg <;> simp_all [jobInit, hv, hr, how]
    · simp [jobInit, hv, Bool.eq_false_iff.2 hv]

/-- Concrete instances of `job_init_fail_fast`: a server reporting version
0.3.9 is rejected before `create_job` and before the keepalive thread starts,
and a new lease with no owner is rejected likewise. -/
theorem job_init_fail_fast_witness :
    ((jobInit ⟨some "spalloc", [0, 3, 9], none, .queued, some "me", none, none, none⟩).2
        = some .incompatibleVersion ∧
      InitAction.startKeepalive
        ∉ (jobInit ⟨some "spalloc", [0, 3, 9], none, .queued, some "me", none, none, none⟩).1 ∧
      InitAction.createJob
        ∉ (jobInit ⟨some "spalloc", [0, 3, 9], none, .queued, some "me", none, none, none⟩).1) ∧
    (((jobInit ⟨some "spalloc", [1, 0, 0], none, .queued, none, none, none, none⟩).2).isSome ∧
      InitAction.startKeepalive
        ∉ (jobInit ⟨some "spalloc", [1, 0, 0], none, .queued, none, none, none, none⟩).1 ∧
      InitAction.createJob
        ∉ (jobInit ⟨some "spalloc", [1, 0, 0], none, .queued, none, none, none, none⟩).1) :=
  ⟨(job_init_fail_fast
      ⟨some "spalloc", [0, 3, 9], none, .queued, some "me", none, none, none⟩
      (by decide)).2.1 (by decide),
   (job_init_fail_fast
      ⟨some "spalloc", [1, 0, 0], none, .queued, none, none, none, none⟩
      (by decide)).2.2.1 (by decide) rfl⟩

/-- Ticks consumed by iterations `i, i+1, ..., i+j-1` of the
`wait_until_ready` loop when iteration x consumes `dur x` ticks. -/
def relElapsed (dur : Nat → Nat) : Nat → Nat → Nat
  | _, 0 => 0
  | i, j + 1 => dur i + relElapsed dur (i + 1) j

lemma waitUntilReadyAux_skip (obs : Nat → JobState) (reason : Nat → Option String)
    (dur : Nat → Nat) (T : Option Nat) :
    ∀ (k i t fuel : Nat),
      (∀ j, j < k → obs (i + j) = .queued ∨ obs (i + j) = .power) →
      (∀ j, j < k → timedOutN T (t + relElapsed dur i j) = false) →
      waitUntilReadyAux obs reason dur T (fuel + k) i t
        = waitUntilReadyAux obs reason dur T fuel (i + k) (t + relElapsed dur i k) := by
  intro k
  induction k with
  | zero =>
    intro i t fuel _ _
    simp [relElapsed]
  | succ k ih =>
    intro i t fuel htrans htime
    have ht0 : timedOutN T t = false := by
      have := htime 0 (Nat.succ_pos k)
      simpa [relElapsed] using this
    have hstep :
        waitUntilReadyAux obs reason dur T (fuel + (k + 1)) i t
          = waitUntilReadyAux obs reason dur T (fuel + k) (i + 1) (t + dur i) := by
      have hobs := htrans 0 (Nat.succ_pos k)
      simp only [Nat.add_zero] at hobs
      rcases hobs with hq | hq <;>
        · rw [show fuel + (k + 1) = (fuel + k) + 1 from rfl, waitUntilReadyAux]
          simp [ht0, hq]
    rw [hstep, ih (i + 1) (t + dur i) fuel
      (fun j hj => by
        have := htrans (j + 1) (Nat.succ_lt_succ hj)
        simpa [Nat.add_assoc, Nat.add_comm 1 j] using this)
      (fun j hj => by
        have := htime (j + 1) (Nat.succ_lt_succ hj)
        simpa [relElapsed, Nat.add_assoc] using this)]
    have h1 : i + 1 + k = i + (k + 1) := by omega
    have h2 : t + dur i + relElapsed dur (i + 1) k = t + relElapsed dur i (k + 1) := by
      simp [relElapsed, Nat.add_assoc]
    rw [h1, h2]

/-- C1: the `wait_until_ready` loop keeps looping through `queued` and `power`
observations, and at the first iteration `k` that observes anything else it
returns on `ready`, raises `JobDestroyedError` carrying the server-reported
reason on `destroyed`, and raises `JobDestroyedError` with the fixed
`no longer recognises` message on `unknown` — provided the deadline has not
passed by iteration `k`; if instead the overall timeout elapses first (at
iteration `k`, after `k` transient observations), the loop raises
`StateChangeTimeoutError` regardless of what would be observed next. -/
theorem wait_until_ready_spec (obs : Nat → JobState) (reason : Nat → Option String)
    (dur : Nat → Nat) (T : Option Nat) (fuel k : Nat)
    (htrans : ∀ j, j < k → obs j = .queued ∨ obs j = .power)
    (hfuel : k < fuel) :
    ((∀ j, j ≤ k → timedOutN T (relElapsed dur 0 j) = false) →
      (obs k = .ready → waitUntilReady obs reason dur T fuel = some .success) ∧
      (obs k = .destroyed →
        waitUntilReady obs reason dur T fuel = some (.jobDestroyed (reason k))) ∧
      (obs k = .unknown →
        waitUntilReady obs reason dur T fuel
          = some (.jobDestroyed (some unrecognisedMsg)))) ∧
    ((∀ j, j < k → timedOutN T (relElapsed dur 0 j) = false) →
      timedOutN T (relElapsed dur 0 k) = true →
      waitUntilReady obs reason dur T fuel = some .stateChangeTimeout) := by
  obtain ⟨m, hm⟩ : ∃ m, fuel = (m + 1) + k :=
    ⟨fuel - k - 1, by omega⟩
  subst hm
  constructor
  · intro htime
    have hskip := waitUntilReadyAux_skip obs reason dur T k 0 0 (m + 1)
      (fun j hj => by simpa using htrans j hj)
      (fun j hj => by simpa using htime j (Nat.le_of_lt hj))
    have hlast : timedOutN T (relElapsed dur 0 k) = false := htime k le_rfl
    refine ⟨?_, ?_, ?_⟩ <;> intro hobs <;>
      · unfold waitUntilReady
        rw [hskip, waitUntilReadyAux]
        simp [hlast, hobs]
  · intro htime hlast
    have hskip := waitUntilReadyAux_skip obs reason dur T k 0 0 (m + 1)
      (fun j hj => by simpa using htrans j hj)
      (fun j hj => by simpa using htime j hj)
    unfold waitUntilReady
    rw [hskip, waitUntilReadyAux]
    simp [hlast]

/-- Concrete instance of `wait_until_ready_spec`: a lease observed
`queued, power, destroyed` with reason `evicted` makes `wait_until_ready`
fail with a `JobDestroyedError` carrying `evicted` (the second spec scenario),
and with a 1-tick deadline but transient observations it raises
`StateChangeTimeoutError`. -/
theorem wait_until_ready_spec_witness :
    (∀ j, j < 2 →
      (fun i => if i = 0 then JobState.queued else
        if i = 1 then JobState.power else JobState.destroyed) j = JobState.queued ∨
      (fun i => if i = 0 then JobState.queued else
        if i = 1 then JobState.power else JobState.destroyed) j = JobState.power) ∧
    waitUntilReady
      (fun i => if i = 0 then JobState.queued else
        if i = 1 then JobState.power else JobState.destroyed)
      (fun _ => some "evicted") (fun _ => 1) (some 10) 5
      = some (.jobDestroyed (some "evicted")) ∧
    waitUntilReady (fun _ => JobState.queued) (fun _ => none) (fun _ => 1) (some 1) 5
      = some .stateChangeTimeout :=
  ⟨by decide,
   ((wait_until_ready_spec
      (fun i => if i = 0 then JobState.queued else
        if i = 1 then JobState.power else JobState.destroyed)
      (fun _ => some "evicted") (fun _ => 1) (some 10) 5 2
      (by decide) (by decide)).1 (by decide)).2.1 (by decide),
   (wait_until_ready_spec (fun _ => JobState.queued) (fun _ => none)
      (fun _ => 1) (some 1) 5 2 (by decide) (by decide)).2
      (by decide) (by decide)⟩

/-- Total delay before the last item of a script fragment arrives. -/
def delaysSum : List (Nat × RecvLine) → Nat
  | [] => 0
  | (d, _) :: rest => d + delaysSum rest

/-- A script fragment consisting only of decoded lines. -/
def asLines : List (Nat × RecvLine) → List (Nat × RecvItem)
  | [] => []
  | (d, l) :: rest => (d, .line l) :: asLines rest

/-- Every line of the fragment is a notification (neither a `return` nor an
`exception` key) and arrives within the deadline, waits starting at tick
`t`. -/
def untaggedInTime (fin : Option Nat) : Nat → List (Nat × RecvLine) → Bool
  | _, [] => true
  | t, (d, l) :: rest =>
    inTime fin (t + d) && l.ret.isNone && l.exc.isNone &&
      untaggedInTime fin (t + d) rest

lemma inTime_not_timedOut {fin : Option Nat} {t u : Nat} (htu : t ≤ u)
    (h : inTime fin u = true) : timedOutN fin t = false := by
  cases fin with
  | none => rfl
  | some f =>
    simp only [inTime, decide_eq_true_eq] at h
    simp only [timedOutN, decide_eq_false_iff_not]
    omega

lemma untagged_not_timedOut {fin : Option Nat} :
    ∀ (pre : List (Nat × RecvLine)) (t : Nat),
      untaggedInTime fin t pre = true → timedOutN fin t = false →
      timedOutN fin (t + delaysSum pre) = false := by
  intro pre
  induction pre with
  | nil =>
    intro t _ ht
    simpa [delaysSum] using ht
  | cons hd tl ih =>
    obtain ⟨d, l⟩ := hd
    intro t h ht
    simp only [untaggedInTime, Bool.and_eq_true] at h
    have := ih (t + d) h.2 (inTime_not_timedOut le_rfl h.1.1.1)
    simpa [delaysSum, Nat.add_assoc] using this

lemma callLoop_skip (fin : Option Nat) :
    ∀ (pre : List (Nat × RecvLine)) (rest : List (Nat × RecvItem)) (t : Nat),
      untaggedInTime fin t pre = true →
      callLoop fin (asLines pre ++ rest) t
        = ((callLoop fin rest (t + delaysSum pre)).1,
           pre.map Prod.snd ++ (callLoop fin rest (t + delaysSum pre)).2) := by
  intro pre
  induction pre with
  | nil =>
    intro rest t _
    simp [asLines, delaysSum]
  | cons hd tl ih =>
    obtain ⟨d, l⟩ := hd
    intro rest t h
    simp only [untaggedInTime, Bool.and_eq_true] at h
    obtain ⟨⟨⟨hin, hret⟩, hexc⟩, htl⟩ := h
    have hret' : l.ret = none := Option.isNone_iff_eq_none.1 hret
    have hexc' : l.exc = none := Option.isNone_iff_eq_none.1 hexc
    have ht0 : timedOutN fin t = false :=
      inTime_not_timedOut (Nat.le_add_right t d) hin
    rw [show asLines ((d, l) :: tl) ++ rest
        = (d, RecvItem.line l) :: (asLines tl ++ rest) from rfl]
    rw [callLoop]
    simp only [ht0, Bool.false_eq_true, if_false, hin, if_true, hret', hexc']
    rw [ih rest (t + d) htl]
    simp [delaysSum, Nat.add_assoc]

/-- C4: while a `call` is outstanding, every received line carrying neither a
`return` nor an `exception` key is appended to the notification queue in
arrival order — after the call the queue is the old queue followed by exactly
those lines, none discarded — and successive `wait_for_notification` calls
pop the queue from the front, delivering the notifications in the same FIFO
order. -/
theorem notifications_fifo_spec (fin : Option Nat) (st : ClientState)
    (dur : Nat) (pre : List (Nat × RecvLine)) (rest : List (Nat × RecvItem))
    (st2 : ClientState) (a b : RecvLine) (q : List RecvLine)
    (T1 T2 : Option Int) (s1 s2 : List (Nat × RecvItem)) :
    (st.dead = false → inTime fin dur = true →
      untaggedInTime fin dur pre = true →
      clientCall st fin (.ok dur) (asLines pre ++ rest) =
        ⟨(callLoop fin rest (dur + delaysSum pre)).1,
         { st with queue := st.queue ++ pre.map Prod.snd
             ++ (callLoop fin rest (dur + delaysSum pre)).2 },
         true⟩) ∧
    (st2.queue = a :: b :: q →
      waitForNotification st2 T1 s1
          = ⟨.notif a, { st2 with queue := b :: q }, false⟩ ∧
      waitForNotification { st2 with queue := b :: q } T2 s2
          = ⟨.notif b, { st2 with queue := q }, false⟩) := by
  constructor
  · intro hdead hin hpre
    simp only [clientCall, hdead, Bool.false_eq_true, if_false, hin, if_true]
    rw [callLoop_skip fin pre rest dur hpre]
    simp [List.append_assoc]
  · intro hq
    obtain ⟨dead2, q2, socks2⟩ := st2
    simp only at hq
    subst hq
    exact ⟨rfl, rfl⟩

/-- Concrete instance of `notifications_fifo_spec`, the spec's scenario: two
notifications arrive interleaved before the RPC reply; the queue afterwards
holds them in arrival order and two successive `wait_for_notification` calls
return them in that same order. -/
theorem notifications_fifo_spec_witness :
    untaggedInTime (some 10) 0
        [(1, ⟨none, none, .num 1⟩), (1, ⟨none, none, .num 2⟩)] = true ∧
    clientCall ⟨false, [], []⟩ (some 10) (.ok 0)
        (asLines [(1, ⟨none, none, .num 1⟩), (1, ⟨none, none, .num 2⟩)]
          ++ [(1, .line ⟨some .null, none, .null⟩)]) =
      ⟨.ret .null, ⟨false, [⟨none, none, .num 1⟩, ⟨none, none, .num 2⟩], []⟩, true⟩ ∧
    waitForNotification ⟨false, [⟨none, none, .num 1⟩, ⟨none, none, .num 2⟩], []⟩ none []
        = ⟨.notif ⟨none, none, .num 1⟩, ⟨false, [⟨none, none, .num 2⟩], []⟩, false⟩ ∧
    waitForNotification ⟨false, [⟨none, none, .num 2⟩], []⟩ none []
        = ⟨.notif ⟨none, none, .num 2⟩, ⟨false, [], []⟩, false⟩ := by
  refine ⟨by decide, ?_, ?_, ?_⟩
  · have h := (notifications_fifo_spec (some 10) ⟨false, [], []⟩ 0
      [(1, ⟨none, none, .num 1⟩), (1, ⟨none, none, .num 2⟩)]
      [(1, .line ⟨some .null, none, .null⟩)]
      ⟨false, [], []⟩ ⟨none, none, .null⟩ ⟨none, none, .null⟩ [] none none [] []).1
      rfl (by decide) (by decide)
    rw [h]
    decide
  · exact (notifications_fifo_spec (some 10) ⟨false, [], []⟩ 0 [] []
      ⟨false, [⟨none, none, .num 1⟩, ⟨none, none, .num 2⟩], []⟩
      ⟨none, none, .num 1⟩ ⟨none, none, .num 2⟩ [] none none [] []).2 rfl |>.1
  · exact (notifications_fifo_spec (some 10) ⟨false, [], []⟩ 0 [] []
      ⟨false, [⟨none, none, .num 1⟩, ⟨none, none, .num 2⟩], []⟩
      ⟨none, none, .num 1⟩ ⟨none, none, .num 2⟩ [] none none [] []).2 rfl |>.2

/-- C2 counterexample: `call` tests `if "return" in obj` before
`if "exception" in obj`, so a received line carrying both keys is treated as
a success reply and its value returned — it does not raise
`SpallocServerException`, contradicting the claim for lines that contain an
`exception` key. -/
theorem call_exception_key_counterexample :
    RecvLine.exc ⟨some (.num 7), some "boom", .null⟩ = some "boom" ∧
    (clientCall ⟨false, [], []⟩ (some 5) (.ok 0)
        [(0, .line ⟨some (.num 7), some "boom", .null⟩)]).outcome
      = .ret (.num 7) := by
  decide

/-- C2 amended: after any run of in-time notification lines, `call` raises
`SpallocServerException` carrying the server-supplied message when the next
line arrives in time bearing an `exception` key and no `return` key; it
raises the timeout error (`ProtocolTimeoutError`) when the deadline derived
from the call's timeout expires before any further item arrives — whether the
next item would arrive too late, no item ever arrives, or the send itself
exceeds the socket timeout — and it raises `ProtocolError` wrapping the
message of any IOError/OSError encountered while sending or while
receiving. -/
theorem call_error_spec (st : ClientState) (fin : Option Nat) (dur : Nat)
    (pre : List (Nat × RecvLine)) (rest : List (Nat × RecvItem))
    (m : String) (d : Nat) (l : RecvLine) (f : Nat) (it : RecvItem)
    (script : List (Nat × RecvItem)) :
    (st.dead = false → inTime fin dur = true →
      untaggedInTime fin dur pre = true →
      l.ret = none → l.exc = some m →
      inTime fin (dur + delaysSum pre + d) = true →
      (clientCall st fin (.ok dur) (asLines pre ++ (d, .line l) :: rest)).outcome
        = .serverExc m) ∧
    (st.dead = false → fin = some f → inTime fin dur = true →
      untaggedInTime fin dur pre = true →
      inTime fin (dur + delaysSum pre + d) = false →
      (clientCall st fin (.ok dur) (asLines pre ++ (d, it) :: rest)).outcome
        = .protoTimeout) ∧
    (st.dead = false → fin = some f → inTime fin dur = true →
      untaggedInTime fin dur pre = true →
      (clientCall st fin (.ok dur) (asLines pre)).outcome = .protoTimeout) ∧
    (st.dead = false →
      (clientCall st fin (.ioErr m) script).outcome = .protoError m) ∧
    (st.dead = false → inTime fin dur = true →
      untaggedInTime fin dur pre = true →
      inTime fin (dur + delaysSum pre + d) = true →
      (clientCall st fin (.ok dur) (asLines pre ++ (d, .fault m) :: rest)).outcome
        = .protoError m) ∧
    (st.dead = false → inTime fin dur = false →
      (clientCall st fin (.ok dur) script).outcome = .protoTimeout) := by
  have halive : inTime fin dur = true → untaggedInTime fin dur pre = true →
      timedOutN fin (dur + delaysSum pre) = false := fun hin hpre =>
    untagged_not_timedOut pre dur hpre (inTime_not_timedOut le_rfl hin)
  refine ⟨?_, ?_, ?_, ?_, ?_, ?_⟩
  · intro hdead hin hpre hret hexc harr
    simp only [clientCall, hdead, Bool.false_eq_true, if_false, hin, if_true]
    rw [callLoop_skip fin pre ((d, .line l) :: rest) dur hpre]
    rw [callLoop]
    simp [halive hin hpre, harr, hret, hexc]
  · intro hdead hf hin hpre harr
    subst hf
    simp only [clientCall, hdead, Bool.false_eq_true, if_false, hin, if_true]
    rw [callLoop_skip (some f) pre ((d, it) :: rest) dur hpre]
    cases it <;>
      · rw [callLoop]
        simp [halive hin hpre, harr]
  · intro hdead hf hin hpre
    subst hf
    simp only [clientCall, hdead, Bool.false_eq_true, if_false, hin, if_true]
    rw [show asLines pre = asLines pre ++ [] by simp]
    rw [callLoop_skip (some f) pre [] dur hpre]
    rw [callLoop]
    simp [halive hin hpre]
  · intro hdead
    simp [clientCall, hdead]
  · intro hdead hin hpre harr
    simp only [clientCall, hdead, Bool.false_eq_true, if_false, hin, if_true]
    rw [callLoop_skip fin pre ((d, .fault m) :: rest) dur hpre]
    rw [callLoop]
    simp [halive hin hpre, harr]
  · intro hdead hin
    simp [clientCall, hdead, hin]

/-- Concrete instances of `call_error_spec`: an in-time exception-only line
after one notification raises the server exception with its message; a server
that never replies within the 1-tick deadline yields the timeout error; and a
socket fault while receiving is wrapped in `ProtocolError`. -/
theorem call_error_spec_witness :
    (clientCall ⟨false, [], []⟩ (some 10) (.ok 0)
        (asLines [(1, ⟨none, none, .num 1⟩)]
          ++ (1, .line ⟨none, some "boom", .null⟩) :: [])).outcome
      = .serverExc "boom" ∧
    (clientCall ⟨false, [], []⟩ (some 1) (.ok 0)
        (asLines [] ++ (5, .line ⟨some .null, none, .null⟩) :: [])).outcome
      = .protoTimeout ∧
    (clientCall ⟨false, [], []⟩ (some 10) (.ok 0)
        (asLines [] ++ (1, .fault "Connection closed.") :: [])).outcome
      = .protoError "Connection closed." :=
  ⟨(call_error_spec ⟨false, [], []⟩ (some 10) 0 [(1, ⟨none, none, .num 1⟩)] []
      "boom" 1 ⟨none, some "boom", .null⟩ 10 (.fault "x") []).1
      rfl (by decide) (by decide) rfl rfl (by decide),
   (call_error_spec ⟨false, [], []⟩ (some 1) 0 [] [] "x" 5
      ⟨none, none, .null⟩ 1 (.line ⟨some .null, none, .null⟩) []).2.1
      rfl rfl (by decide) (by decide) (by decide),
   (call_error_spec ⟨false, [], []⟩ (some 10) 0 [] [] "Connection closed." 1
      ⟨none, none, .null⟩ 10 (.fault "y") []).2.2.2.2.1
      rfl (by decide) (by decide) (by decide)⟩

lemma scanStop_eq_some {stop : Nat → Bool} :
    ∀ (n t u : Nat), scanStop stop t n = some u → stop u = true := by
  intro n
  induction n with
  | zero =>
    intro t u h
    simp only [scanStop] at h
    split at h
    · cases h; assumption
    · cases h
  | succ n ih =>
    intro t u h
    simp only [scanStop] at h
    split at h
    · cases h; assumption
    · exact ih (t + 1) u h

lemma scanStop_isSome {stop : Nat → Bool} :
    ∀ (n t s : Nat), stop s = true → t ≤ s → s ≤ t + n →
      (scanStop stop t n).isSome := by
  intro n
  induction n with
  | zero =>
    intro t s hs h1 h2
    have : s = t := by omega
    subst this
    simp [scanStop, hs]
  | succ n ih =>
    intro t s hs h1 h2
    by_cases ht : stop t
    · simp [scanStop, ht]
    · have hne : t ≠ s := fun h => ht (h ▸ hs)
      have := ih (t + 1) s hs (by omega) (by omega)
      simpa [scanStop, ht] using this

lemma kloop_sound (stop rpcOk : Nat → Bool) (halfKa : Option Nat) (rd : Nat) :
    ∀ (fuel : Nat) (phase : Bool) (t : Nat),
      (∀ e ∈ (kloop stop rpcOk halfKa rd fuel phase t).1, stop e = false) ∧
      (∀ u, (kloop stop rpcOk halfKa rd fuel phase t).2 = some u →
        stop u = true) := by
  intro fuel
  induction fuel with
  | zero =>
    intro phase t
    simp [kloop]
  | succ fuel ih =>
    intro phase t
    cases phase with
    | false =>
      cases halfKa with
      | some d =>
        rcases hsc : scanStop stop t d with _ | u
        · simpa [kloop, hsc] using ih true (t + d)
        · refine ⟨?_, ?_⟩
          · simp [kloop, hsc]
          · intro u' h
            simp only [kloop, hsc, Option.some.injEq] at h
            exact h ▸ scanStop_eq_some d t u hsc
      | none =>
        rcases hsc : scanStop stop t fuel with _ | u
        · simp [kloop, hsc]
        · refine ⟨?_, ?_⟩
          · simp [kloop, hsc]
          · intro u' h
            simp only [kloop, hsc, Option.some.injEq] at h
            exact h ▸ scanStop_eq_some fuel t u hsc
    | true =>
      by_cases hst : stop t
      · simpa [kloop, hst] using ih false t
      · by_cases hrpc : rpcOk t
        · have hrec := ih false (t + 1)
          refine ⟨?_, ?_⟩
          · intro e he
            simp only [kloop, hst, Bool.false_eq_true, if_false, hrpc,
              if_true, List.mem_cons] at he
            rcases he with rfl | he
            · simpa using hst
            · exact hrec.1 e he
          · intro u h
            simp only [kloop, hst, Bool.false_eq_true, if_false, hrpc,
              if_true] at h
            exact hrec.2 u h
        · rcases hsc : scanStop stop (t + 1) rd with _ | u
          · have hrec := ih true (t + rd + 2)
            refine ⟨?_, ?_⟩
            · intro e he
              simp only [kloop, hst, Bool.false_eq_true, if_false, hrpc,
                hsc, List.mem_cons] at he
              rcases he with rfl | he
              · simpa using hst
              · exact hrec.1 e he
            · intro u h
              simp only [kloop, hst, Bool.false_eq_true, if_false, hrpc,
                hsc] at h
              exact hrec.2 u h
          · have hrec := ih false u
            refine ⟨?_, ?_⟩
            · intro e he
              simp only [kloop, hst, Bool.false_eq_true, if_false, hrpc,
                hsc, List.mem_cons] at he
              rcases he with rfl | he
              · simpa using hst
              · exact hrec.1 e he
            · intro u' h
              simp only [kloop, hst, Bool.false_eq_true, if_false, hrpc,
                hsc] at h
              exact hrec.2 u' h

lemma kloop_none_no_events (stop rpcOk : Nat → Bool) (rd : Nat) :
    ∀ (fuel t : Nat), (kloop stop rpcOk none rd fuel false t).1 = [] := by
  intro fuel t
  cases fuel with
  | zero => simp [kloop]
  | succ fuel =>
    rcases hsc : scanStop stop t fuel with _ | u <;> simp [kloop, hsc]

/-- C5: the background keepalive loop issues keepalive RPCs only at ticks at
which the stop signal is not yet set, so once `close()` has set the signal
(which it does before joining the thread and returning) no keepalive is
issued at or after any tick where the signal holds; the loop terminates only
at a tick where the stop signal is set; with no keepalive interval the loop
issues no keepalive RPC at all, yet still terminates once the signal is set
(within the simulated fuel); and `Job.close` sets the stop signal and joins
the loop before closing the client and returning. -/
theorem keepalive_loop_spec (stop rpcOk : Nat → Bool) (keepalive : Option Nat)
    (rd fuel : Nat)
    (mono : ∀ a b : Nat, a ≤ b → stop a = true → stop b = true) :
    (∀ e ∈ (jobKeepaliveThread stop rpcOk keepalive rd fuel).1, stop e = false) ∧
    (∀ s, stop s = true →
      ∀ e ∈ (jobKeepaliveThread stop rpcOk keepalive rd fuel).1, e < s) ∧
    (∀ u, (jobKeepaliveThread stop rpcOk keepalive rd fuel).2 = some u →
      stop u = true) ∧
    (keepalive = none → (jobKeepaliveThread stop rpcOk keepalive rd fuel).1 = []) ∧
    (keepalive = none → ∀ s, stop s = true → s < fuel →
      ((jobKeepaliveThread stop rpcOk keepalive rd fuel).2).isSome) ∧
    jobCloseActions = [.setStopSignal, .joinKeepalive, .closeClient] := by
  have hsound := kloop_sound stop rpcOk (keepalive.map (· / 2)) rd fuel false 0
  refine ⟨hsound.1, ?_, hsound.2, ?_, ?_, rfl⟩
  · intro s hs e he
    have hef : stop e = false := hsound.1 e he
    by_contra hlt
    exact absurd (mono s e (by omega) hs) (by simp [hef])
  · intro hk
    subst hk
    exact kloop_none_no_events stop rpcOk rd fuel 0
  · intro hk s hs hsf
    subst hk
    unfold jobKeepaliveThread
    obtain ⟨fuel', rfl⟩ : ∃ fuel', fuel = fuel' + 1 :=
      ⟨fuel - 1, by omega⟩
    have := scanStop_isSome fuel' 0 s hs (Nat.zero_le s) (by omega)
    rcases hsc : scanStop stop 0 fuel' with _ | u
    · rw [hsc] at this; simp at this
    · simp [kloop, Option.map_none, hsc]

/-- Concrete instance of `keepalive_loop_spec`: with the stop signal set from
tick 5 on, a keepalive interval of 4 and fuel 20, the only keepalive is
issued at tick 2, where the signal is still clear, and the loop terminates at
tick 5 where the signal holds. -/
theorem keepalive_loop_spec_witness :
    (jobKeepaliveThread (fun t => decide (5 ≤ t)) (fun _ => true) (some 4) 3 20).1
        = [2] ∧
    (fun t : Nat => decide (5 ≤ t)) 2 = false ∧
    (fun t : Nat => decide (5 ≤ t)) 5 = true :=
  ⟨by decide,
   (keepalive_loop_spec (fun t => decide (5 ≤ t)) (fun _ => true) (some 4) 3 20
      (by
        intro a b hab h
        simp only [decide_eq_true_eq] at h ⊢
        omega)).1 2 (by decide),
   (keepalive_loop_spec (fun t => decide (5 ≤ t)) (fun _ => true) (some 4) 3 20
      (by
        intro a b hab h
        simp only [decide_eq_true_eq] at h ⊢
        omega)).2.2.1 5 (by decide)⟩


